import Mathlib

/-!
Verification development for the task lifecycle engine of an asynchronous
task library (async++ annotated fork).  The definitions below are a shallow
embedding of the C++ sources:

  * include/async++/task_base.h   - task states, task node, execution paths
  * include/async++/parallel_for.h - recursive partitioner driver
  * src/task_wait_event.h         - wait event bitmask operations
  * include/async++/aligned_alloc.h - aligned_array constructor cleanup

Machine state (atomic byte, union slots, function-holder storage) is made
explicit: option fields record which union slot currently holds a validly
constructed object, a counter records destructor invocations on the stored
function object, and a trace records the order of the primitive effects.
-/

/-- Task lifecycle states, from the enum task_state in task_base.h. -/
inductive TaskState where
  | pending
  | locked
  | unwrapped
  | completed
  | canceled
deriving DecidableEq, Repr

/-- Predicate is_finished from task_base.h: completed or canceled. -/
def is_finished (s : TaskState) : Bool :=
  s = TaskState.completed || s = TaskState.canceled

/-- Primitive effects performed on a task node, used to record the order in
which the cancel/run paths touch the node (store into a union slot, destroy
the function object, store the state byte, drain the continuation list). -/
inductive TaskEv where
  | storeResult
  | storeExc
  | destroyFunc
  | storeState (s : TaskState)
  | drainConts
deriving DecidableEq, Repr

/-- Shallow embedding of a function-bearing task node
(task_base / task_result_holder / task_result / task_func / func_holder).
resultSlot and exceptSlot model the storage union: a slot is some _ exactly
when a validly constructed object occupies it.  funcValid and
funcDestroyCount model the func_holder storage and how many times
destroy_func ran.  funcInvoked records whether the user callable was
invoked.  conts / contsSealed / drained model the continuation vector. -/
structure TaskNode (R E : Type) where
  state : TaskState
  resultSlot : Option R
  exceptSlot : Option E
  funcValid : Bool
  funcDestroyCount : Nat
  funcInvoked : Bool
  conts : List Nat
  contsSealed : Bool
  drained : List Nat
  trace : List TaskEv
deriving DecidableEq, Repr

/-- Freshly constructed function-bearing node: state pending, union unused,
function object constructed, with a list cs of already-registered
continuations. -/
def initTaskNode (R E : Type) (cs : List Nat) : TaskNode R E :=
  { state := TaskState.pending
    resultSlot := none
    exceptSlot := none
    funcValid := true
    funcDestroyCount := 0
    funcInvoked := false
    conts := cs
    contsSealed := false
    drained := []
    trace := [] }

/-- task_result_holder::set_result: placement-new the value into the result
slot of the union. -/
def set_result {R E : Type} (v : R) (n : TaskNode R E) : TaskNode R E :=
  { n with resultSlot := some v, trace := n.trace ++ [TaskEv.storeResult] }

/-- task_result::set_exception: placement-new the exception into the
exception slot of the union. -/
def set_exception {R E : Type} (e : E) (n : TaskNode R E) : TaskNode R E :=
  { n with exceptSlot := some e, trace := n.trace ++ [TaskEv.storeExc] }

/-- func_holder::destroy_func: run the destructor of the stored function
object. -/
def destroy_func {R E : Type} (n : TaskNode R E) : TaskNode R E :=
  { n with funcValid := false
           funcDestroyCount := n.funcDestroyCount + 1
           trace := n.trace ++ [TaskEv.destroyFunc] }

/-- task_base::run_continuations: flush_and_lock empties and seals the
continuation list, scheduling every entry exactly once. -/
def run_continuations {R E : Type} (n : TaskNode R E) : TaskNode R E :=
  { n with conts := []
           contsSealed := true
           drained := n.drained ++ n.conts
           trace := n.trace ++ [TaskEv.drainConts] }

/-- task_base::finish: release-store completed, then drain continuations. -/
def task_finish {R E : Type} (n : TaskNode R E) : TaskNode R E :=
  run_continuations
    { n with state := TaskState.completed
             trace := n.trace ++ [TaskEv.storeState TaskState.completed] }

/-- task_result::cancel_base: store the exception, release-store canceled,
then drain continuations. -/
def cancel_base {R E : Type} (e : E) (n : TaskNode R E) : TaskNode R E :=
  run_continuations
    { (set_exception e n) with
        state := TaskState.canceled
        trace := (set_exception e n).trace ++ [TaskEv.storeState TaskState.canceled] }

/-- task_func::cancel: destroy the stored function object first, then
cancel_base with the exception. -/
def task_func_cancel {R E : Type} (e : E) (n : TaskNode R E) : TaskNode R E :=
  cancel_base e (destroy_func n)

/-- Mark that the user callable was invoked (entry into invoke_fake_void on
the stored function). -/
def mark_invoked {R E : Type} (n : TaskNode R E) : TaskNode R E :=
  { n with funcInvoked := true }

/-- root_exec_func::operator() composed with task_func::run, for a callable
whose outcome is fr : on normal return v the path is set_result, then
destroy_func, then finish; on an escaping exception task_func::run catches
it and routes to task_func::cancel. -/
def root_exec_run {R E : Type} (fr : Except E R) (n : TaskNode R E) : TaskNode R E :=
  match fr with
  | Except.ok v => task_finish (destroy_func (set_result v (mark_invoked n)))
  | Except.error e => task_func_cancel e (mark_invoked n)

/-- task_result_holder::get_result on the raw storage: reinterpret the
result slot (valid only when the task completed). -/
def get_result_raw {R E : Type} [Inhabited R] (n : TaskNode R E) : R :=
  n.resultSlot.getD default

/-- task_result::get_exception on the raw storage: reinterpret the
exception slot (valid only when the task was canceled). -/
def get_exception_raw {R E : Type} [Inhabited E] (n : TaskNode R E) : E :=
  n.exceptSlot.getD default

/-- task::get on a finished task: wait_and_throw rethrows the stored
exception when the state is canceled, otherwise get_result moves the
result out of the exclusive handle. -/
def task_get {R E : Type} [Inhabited R] [Inhabited E] (n : TaskNode R E) : Except E R :=
  if n.state = TaskState.canceled then Except.error (get_exception_raw n)
  else Except.ok (get_result_raw n)

/-- shared_task::get on a finished task: returns a const reference to the
stored result, leaving the node unchanged. -/
def shared_task_get {R E : Type} [Inhabited R] [Inhabited E] (n : TaskNode R E) :
    Except E R × TaskNode R E :=
  (if n.state = TaskState.canceled then Except.error (get_exception_raw n)
   else Except.ok (get_result_raw n), n)

/-- Wait event bitmask operation try_wait from task_wait_event.h: under the
lock, result := event_mask AND event; event_mask := event_mask AND NOT
event; return result != 0.  The int bitmask is modelled as a Nat, and the
mask update m AND NOT e is Nat.ldiff m e. -/
def try_wait (event : Nat) (event_mask : Nat) : Bool × Nat :=
  (decide (event_mask &&& event ≠ 0), Nat.ldiff event_mask event)

/-- Wait event bitmask operation signal from task_wait_event.h: OR the bits
into the mask. -/
def wait_event_signal (event : Nat) (event_mask : Nat) : Nat :=
  event_mask ||| event

/-- Wait event bitmask operation wait from task_wait_event.h: once the mask
is nonzero, return it and clear it. -/
def wait_event_wait (event_mask : Nat) : Nat × Nat :=
  (event_mask, 0)

/-- C8: try_wait(e) on a wait-event mask m returns true iff (m AND e) is
nonzero, and afterwards the mask is m with exactly the bits of e cleared:
bit i of the new mask is set iff bit i of m was set and bit i of e is not.
Pending bits outside e are therefore retained. -/
theorem try_wait_peek_and_clear (e m : Nat) :
    ((try_wait e m).1 = true ↔ m &&& e ≠ 0)
    ∧ ∀ i : Nat, ((try_wait e m).2).testBit i = (m.testBit i && !(e.testBit i)) := by
  refine ⟨by simp [try_wait], fun i => ?_⟩
  simp [try_wait, Nat.testBit_ldiff]

/-- C2: running a root task whose callable returns v without throwing
stores v in the result slot, destroys the callable, publishes completed
(in that order, then drains continuations); afterwards get() on the
exclusive handle returns v, and the shared-handle get returns the same
value on every call without changing the node. -/
theorem root_run_value_roundtrip (R E : Type) [Inhabited R] [Inhabited E]
    (v : R) (cs : List Nat) :
    (root_exec_run (E := E) (Except.ok v) (initTaskNode R E cs)).resultSlot = some v
    ∧ (root_exec_run (E := E) (Except.ok v) (initTaskNode R E cs)).funcValid = false
    ∧ (root_exec_run (E := E) (Except.ok v) (initTaskNode R E cs)).state
        = TaskState.completed
    ∧ (root_exec_run (E := E) (Except.ok v) (initTaskNode R E cs)).trace
        = [TaskEv.storeResult, TaskEv.destroyFunc,
           TaskEv.storeState TaskState.completed, TaskEv.drainConts]
    ∧ task_get (root_exec_run (E := E) (Except.ok v) (initTaskNode R E cs))
        = Except.ok v
    ∧ (shared_task_get (root_exec_run (E := E) (Except.ok v) (initTaskNode R E cs))).1
        = Except.ok v
    ∧ shared_task_get ((shared_task_get (root_exec_run (E := E) (Except.ok v)
          (initTaskNode R E cs))).2)
        = shared_task_get (root_exec_run (E := E) (Except.ok v) (initTaskNode R E cs))
    := by
  simp [root_exec_run, task_finish, destroy_func, set_result, mark_invoked,
    run_continuations, task_get, shared_task_get, get_result_raw, initTaskNode]

/-- continuation_exec_func (value-style, non-unwrapping) operator()
composed with task_func::run: if the parent is canceled, route the
parent's exception through task_func::cancel without touching the user
callable; otherwise invoke the callable on the parent's result (outcome
given by f), then destroy_func and finish, with an escaping exception
caught by task_func::run and routed to task_func::cancel. -/
def cont_value_run {P R E : Type} [Inhabited P] [Inhabited E]
    (f : P → Except E R) (parent : TaskNode P E) (t : TaskNode R E) : TaskNode R E :=
  if parent.state = TaskState.canceled then
    task_func_cancel (get_exception_raw parent) t
  else
    match f (get_result_raw parent) with
    | Except.ok v => task_finish (destroy_func (set_result v (mark_invoked t)))
    | Except.error e => task_func_cancel e (mark_invoked t)

/-- C4: a value-style continuation whose parent is canceled with exception
e never invokes the user callable; it copies e into its own exception
payload slot and transitions directly to canceled, draining its own
continuation list. -/
theorem cont_value_parent_canceled {P R E : Type} [Inhabited P] [Inhabited E]
    (f : P → Except E R) (parent : TaskNode P E) (cs : List Nat) (e : E)
    (hc : parent.state = TaskState.canceled) (he : parent.exceptSlot = some e) :
    (cont_value_run f parent (initTaskNode R E cs)).funcInvoked = false
    ∧ (cont_value_run f parent (initTaskNode R E cs)).exceptSlot = some e
    ∧ (cont_value_run f parent (initTaskNode R E cs)).state = TaskState.canceled
    ∧ (cont_value_run f parent (initTaskNode R E cs)).contsSealed = true
    ∧ (cont_value_run f parent (initTaskNode R E cs)).drained = cs := by
  simp [cont_value_run, hc, task_func_cancel, cancel_base, destroy_func,
    set_exception, run_continuations, get_exception_raw, he, initTaskNode]

/-- Witness for C4 at a concrete canceled parent (a root task whose
callable threw 7) and the continuation f = fun x => ok (x + 1). -/
theorem cont_value_parent_canceled_witness :
    (cont_value_run (fun x : Nat => Except.ok (x + 1))
        (root_exec_run (Except.error 7) (initTaskNode Nat Nat []))
        (initTaskNode Nat Nat [3])).funcInvoked = false
    ∧ (cont_value_run (fun x : Nat => Except.ok (x + 1))
        (root_exec_run (Except.error 7) (initTaskNode Nat Nat []))
        (initTaskNode Nat Nat [3])).exceptSlot = some 7
    ∧ (cont_value_run (fun x : Nat => Except.ok (x + 1))
        (root_exec_run (Except.error 7) (initTaskNode Nat Nat []))
        (initTaskNode Nat Nat [3])).state = TaskState.canceled
    ∧ (cont_value_run (fun x : Nat => Except.ok (x + 1))
        (root_exec_run (Except.error 7) (initTaskNode Nat Nat []))
        (initTaskNode Nat Nat [3])).contsSealed = true
    ∧ (cont_value_run (fun x : Nat => Except.ok (x + 1))
        (root_exec_run (Except.error 7) (initTaskNode Nat Nat []))
        (initTaskNode Nat Nat [3])).drained = [3] :=
  cont_value_parent_canceled (fun x : Nat => Except.ok (x + 1))
    (root_exec_run (Except.error 7) (initTaskNode Nat Nat [])) [3] 7
    (by decide) (by decide)

/-- Order of primitive effects that the specification text assigns to the
cancel hook: store the exception, destroy the function object, transition
to canceled, drain continuations.  Stated from the spec's words for
comparison against the code's task_func::cancel. -/
def cancel_hook_spec_order : List TaskEv :=
  [TaskEv.storeExc, TaskEv.destroyFunc,
   TaskEv.storeState TaskState.canceled, TaskEv.drainConts]

/-- C5 counterexample: on a fresh node, the code's cancel hook does not
perform its effects in the order stated by the spec; task_func::cancel
destroys the function object before storing the exception. -/
theorem task_func_cancel_order_counterexample :
    (task_func_cancel 0 (initTaskNode Nat Nat [])).trace ≠ cancel_hook_spec_order := by
  decide

/-- C5 amended: the cancel hook of a function-bearing task performs, in
this order, destroy the captured function object, store e in the exception
payload slot, transition the state to canceled (release), and drain the
continuation list; the same trace results when e escapes the user callable
during run. -/
theorem task_func_cancel_effects (R E : Type) (e : E) (cs : List Nat) :
    (task_func_cancel e (initTaskNode R E cs)).trace
      = [TaskEv.destroyFunc, TaskEv.storeExc,
         TaskEv.storeState TaskState.canceled, TaskEv.drainConts]
    ∧ (task_func_cancel e (initTaskNode R E cs)).exceptSlot = some e
    ∧ (task_func_cancel e (initTaskNode R E cs)).funcValid = false
    ∧ (task_func_cancel e (initTaskNode R E cs)).state = TaskState.canceled
    ∧ (task_func_cancel e (initTaskNode R E cs)).drained = cs
    ∧ (root_exec_run (Except.error e) (initTaskNode R E cs)).trace
      = (task_func_cancel e (initTaskNode R E cs)).trace := by
  simp [task_func_cancel, cancel_base, destroy_func, set_exception,
    run_continuations, root_exec_run, mark_invoked, initTaskNode]

/-- First half of unwrapped_finish: relaxed-store unwrapped into the parent
state, then destroy the parent's own function object.  The second half
registers unwrapped_func on the child through the inline scheduler. -/
def unwrapped_finish_local {R E : Type} (n : TaskNode R E) : TaskNode R E :=
  destroy_func
    { n with state := TaskState.unwrapped
             trace := n.trace ++ [TaskEv.storeState TaskState.unwrapped] }

/-- unwrapped_func::operator(), run by the inline scheduler when the child
reaches a terminal state: if the child completed, move the child's result
into the parent slot (the move constructor may throw, modelled by mt) and
finish the parent; otherwise cancel_base the parent with the child's
exception; if the move threw, cancel_base the parent with that exception. -/
def unwrapped_func_run {R E : Type} [Inhabited R] [Inhabited E]
    (mt : R → Option E) (child par : TaskNode R E) : TaskNode R E :=
  if child.state = TaskState.completed then
    match mt (get_result_raw child) with
    | none => task_finish (set_result (get_result_raw child) par)
    | some e => cancel_base e par
  else
    cancel_base (get_exception_raw child) par

/-- C3: an unwrapping task transitions to unwrapped and destroys its own
callable, and the forwarding continuation installed on the child gives the
parent the child's terminal outcome: a child completed with v (whose
result moves without throwing) completes the parent with v, a child
canceled with e cancels the parent with e, and a move that throws e
cancels the parent with e. -/
theorem unwrap_forwards_child_outcome {R E : Type} [Inhabited R] [Inhabited E]
    (mt : R → Option E) (child : TaskNode R E) (cs : List Nat) (v : R) (e : E) :
    (unwrapped_finish_local (initTaskNode R E cs)).state = TaskState.unwrapped
    ∧ (unwrapped_finish_local (initTaskNode R E cs)).funcValid = false
    ∧ (child.state = TaskState.completed → child.resultSlot = some v → mt v = none →
        (unwrapped_func_run mt child (unwrapped_finish_local (initTaskNode R E cs))).state
            = TaskState.completed
        ∧ (unwrapped_func_run mt child (unwrapped_finish_local (initTaskNode R E cs))).resultSlot
            = some v)
    ∧ (child.state = TaskState.canceled → child.exceptSlot = some e →
        (unwrapped_func_run mt child (unwrapped_finish_local (initTaskNode R E cs))).state
            = TaskState.canceled
        ∧ (unwrapped_func_run mt child (unwrapped_finish_local (initTaskNode R E cs))).exceptSlot
            = some e)
    ∧ (child.state = TaskState.completed → child.resultSlot = some v → mt v = some e →
        (unwrapped_func_run mt child (unwrapped_finish_local (initTaskNode R E cs))).state
            = TaskState.canceled
        ∧ (unwrapped_func_run mt child (unwrapped_finish_local (initTaskNode R E cs))).exceptSlot
            = some e) := by
  refine ⟨by simp [unwrapped_finish_local, destroy_func],
          by simp [unwrapped_finish_local, destroy_func], ?_, ?_, ?_⟩
  · intro h1 h2 h3
    simp [unwrapped_func_run, h1, h2, h3, get_result_raw, task_finish, set_result,
      run_continuations, unwrapped_finish_local, destroy_func, initTaskNode]
  · intro h1 h2
    have hne : child.state ≠ TaskState.completed := by
      rw [h1]; intro hcon; cases hcon
    simp [unwrapped_func_run, hne, get_exception_raw, h2, cancel_base, set_exception,
      run_continuations, unwrapped_finish_local, destroy_func, initTaskNode]
  · intro h1 h2 h3
    simp [unwrapped_func_run, h1, h2, h3, get_result_raw, cancel_base, set_exception,
      run_continuations, unwrapped_finish_local, destroy_func, initTaskNode]

/-- Witness for C3 with a child that completed with 5 and a non-throwing
move: the parent's terminal outcome is completed with 5. -/
theorem unwrap_forwards_child_outcome_witness :
    (unwrapped_func_run (fun _ : Nat => (none : Option Nat))
        (root_exec_run (Except.ok 5) (initTaskNode Nat Nat []))
        (unwrapped_finish_local (initTaskNode Nat Nat []))).state = TaskState.completed
    ∧ (unwrapped_func_run (fun _ : Nat => (none : Option Nat))
        (root_exec_run (Except.ok 5) (initTaskNode Nat Nat []))
        (unwrapped_finish_local (initTaskNode Nat Nat []))).resultSlot = some 5 :=
  (unwrap_forwards_child_outcome (fun _ : Nat => (none : Option Nat))
      (root_exec_run (Except.ok 5) (initTaskNode Nat Nat [])) [] 5 0).2.2.1
    (by decide) (by decide) rfl

/-- Shared memory and program counters for one registrant running
task_base::add_continuation for a continuation c against one finisher
performing the terminal transition (release-store of the finished state
followed by run_continuations).  regPC: 0 = about to relaxed-load the
state byte, 1 = about to call continuations.try_add, 2 = about to
schedule c inline (after the acquire fence), 3 = done.  finPC: 0 = about
to store the terminal state, 1 = about to flush_and_lock, 2 = done.
stFinished is the is_finished bit of the state byte, sealed and inLst
describe the continuation vector, and schedCount counts how many times c
was handed to the schedule hook; the three flags are 0/1 naturals. -/
structure ContRace where
  regPC : Nat
  finPC : Nat
  stFinished : Nat
  sealed : Nat
  inLst : Nat
  schedCount : Nat
deriving DecidableEq, Repr

/-- One step of the registrant.  stale = 1 means the relaxed load of the
state byte returns the stale initial value 0 rather than the current one
(allowed for a relaxed read).  An observed finished state sends the
registrant to the inline-schedule path; otherwise it attempts try_add,
which succeeds iff the vector is not yet sealed and otherwise falls back
to the inline path. -/
def regStep (stale : Nat) (s : ContRace) : ContRace :=
  if s.regPC = 0 then
    (if s.stFinished = 1 ∧ stale = 0 then { s with regPC := 2 }
     else { s with regPC := 1 })
  else if s.regPC = 1 then
    (if s.sealed = 1 then { s with regPC := 2 }
     else { s with inLst := 1, regPC := 3 })
  else if s.regPC = 2 then { s with schedCount := s.schedCount + 1, regPC := 3 }
  else s

/-- One step of the finisher: first the terminal store, then
flush_and_lock, which atomically seals the vector and schedules every
entry it held. -/
def finStep (s : ContRace) : ContRace :=
  if s.finPC = 0 then { s with stFinished := 1, finPC := 1 }
  else if s.finPC = 1 then
    { s with sealed := 1, inLst := 0,
             schedCount := s.schedCount + s.inLst, finPC := 2 }
  else s

/-- Scheduler choice for one interleaving step: run the registrant with a
fresh read, run it with a stale read, or run the finisher. -/
inductive RaceChoice where
  | regFresh
  | regStale
  | fin
deriving DecidableEq, Repr

/-- Apply one interleaving choice. -/
def raceStep (c : RaceChoice) (s : ContRace) : ContRace :=
  match c with
  | RaceChoice.regFresh => regStep 0 s
  | RaceChoice.regStale => regStep 1 s
  | RaceChoice.fin => finStep s

/-- Run an interleaving given as a list of choices. -/
def raceExec : List RaceChoice → ContRace → ContRace
  | [], s => s
  | c :: r, s => raceExec r (raceStep c s)

/-- Initial shared state: task pending, vector unsealed and without c,
nothing scheduled yet, both threads at their first step. -/
def raceInit : ContRace :=
  { regPC := 0, finPC := 0, stFinished := 0, sealed := 0,
    inLst := 0, schedCount := 0 }

/-- Inductive invariant of the race: while the registrant is still
running, nothing has been scheduled and the vector does not hold c; once
the registrant is done, the schedule count plus the vector's pending
entry is exactly one; the vector is sealed exactly when the flush ran,
and an entry can only be present before the seal. -/
def raceInv (s : ContRace) : Prop :=
  (s.regPC = 3 → s.schedCount + s.inLst = 1)
  ∧ (s.regPC ≠ 3 → s.schedCount = 0 ∧ s.inLst = 0)
  ∧ (s.sealed = 1 ↔ s.finPC = 2)
  ∧ (s.inLst = 1 → s.sealed ≠ 1)
  ∧ s.regPC ≤ 3 ∧ s.finPC ≤ 2

theorem regStep_preserves_inv (b : Nat) (s : ContRace) (h : raceInv s) :
    raceInv (regStep b s) := by
  obtain ⟨rp, fp, st, se, il, sc⟩ := s
  simp only [raceInv] at h ⊢
  obtain ⟨h1, h2, h3, h4, h5, h6⟩ := h
  interval_cases rp <;>
    by_cases hb : st = 1 ∧ b = 0 <;> by_cases hse : se = 1 <;>
    simp [regStep, hb, hse] <;> omega

theorem finStep_preserves_inv (s : ContRace) (h : raceInv s) :
    raceInv (finStep s) := by
  obtain ⟨rp, fp, st, se, il, sc⟩ := s
  simp only [raceInv] at h ⊢
  obtain ⟨h1, h2, h3, h4, h5, h6⟩ := h
  interval_cases fp <;> simp [finStep] <;> omega

theorem raceStep_preserves_inv (c : RaceChoice) (s : ContRace) (h : raceInv s) :
    raceInv (raceStep c s) := by
  cases c with
  | regFresh => exact regStep_preserves_inv 0 s h
  | regStale => exact regStep_preserves_inv 1 s h
  | fin => exact finStep_preserves_inv s h

theorem raceExec_preserves_inv (l : List RaceChoice) (s : ContRace) (h : raceInv s) :
    raceInv (raceExec l s) := by
  induction l generalizing s with
  | nil => exact h
  | cons c r ih => exact ih (raceStep c s) (raceStep_preserves_inv c s h)

/-- C1: under every interleaving of a continuation registration with the
owning task's terminal transition (including stale relaxed reads of the
state byte), once both the registrant and the finisher have completed,
the continuation has been handed to the schedule hook exactly once:
either try_add succeeded and the terminal flush scheduled it, or try_add
failed against the sealed vector (or the registrant observed a finished
state) and the registrant scheduled it inline.  The continuation is
neither lost nor scheduled twice. -/
theorem continuation_scheduled_exactly_once (sched : List RaceChoice)
    (hreg : (raceExec sched raceInit).regPC = 3)
    (hfin : (raceExec sched raceInit).finPC = 2) :
    (raceExec sched raceInit).schedCount = 1 := by
  have h := raceExec_preserves_inv sched raceInit
    (by simp [raceInv, raceInit])
  simp only [raceInv] at h
  obtain ⟨h1, h2, h3, h4, h5, h6⟩ := h
  have hs : (raceExec sched raceInit).sealed = 1 := h3.mpr hfin
  have hsum := h1 hreg
  omega

/-- Witness for C1 on the interleaving where the finisher runs first and
the registrant observes the finished state and schedules inline. -/
theorem continuation_scheduled_exactly_once_witness :
    (raceExec [RaceChoice.fin, RaceChoice.fin, RaceChoice.regFresh,
        RaceChoice.regFresh] raceInit).regPC = 3
    ∧ (raceExec [RaceChoice.fin, RaceChoice.fin, RaceChoice.regFresh,
        RaceChoice.regFresh] raceInit).finPC = 2
    ∧ (raceExec [RaceChoice.fin, RaceChoice.fin, RaceChoice.regFresh,
        RaceChoice.regFresh] raceInit).schedCount = 1 :=
  ⟨by decide, by decide,
   continuation_scheduled_exactly_once
     [RaceChoice.fin, RaceChoice.fin, RaceChoice.regFresh, RaceChoice.regFresh]
     (by decide) (by decide)⟩

/-- Modelled from the spec: the partitioner interface consumed by
internal_parallel_for is not part of the sources under verification, so
its split operation follows section 4.8 of the specification: attempt to
split; when no further split is possible (the remaining length is within
the grain) the returned sub-partition is empty and the partitioner keeps
its range; otherwise the first half is returned and the partitioner keeps
the second half.  Ranges are half-open intervals of naturals. -/
def pfSplit (grain : Nat) (p : Nat × Nat) : (Nat × Nat) × (Nat × Nat) :=
  if p.2 - p.1 ≤ grain then ((p.1, p.1), p)
  else ((p.1, p.1 + (p.2 - p.1) / 2), (p.1 + (p.2 - p.1) / 2, p.2))

/-- internal_parallel_for from parallel_for.h, returning the list of
elements the callable is applied to: split the partition; if the returned
sub-partition is empty, apply the callable to each element of the
remaining partition in the current thread; otherwise spawn one half as a
local task, recurse into the other half inline, and join.  The spawned
task performs the same recursion, so the elements it visits are the
recursive visit list of the sub-partition. -/
def internal_parallel_for (grain lo hi : Nat) : List Nat :=
  if ((pfSplit grain (lo, hi)).1).2 ≤ ((pfSplit grain (lo, hi)).1).1 then
    List.range' ((pfSplit grain (lo, hi)).2).1
      (((pfSplit grain (lo, hi)).2).2 - ((pfSplit grain (lo, hi)).2).1)
  else
    internal_parallel_for grain ((pfSplit grain (lo, hi)).1).1 ((pfSplit grain (lo, hi)).1).2
    ++ internal_parallel_for grain ((pfSplit grain (lo, hi)).2).1 ((pfSplit grain (lo, hi)).2).2
termination_by hi - lo
decreasing_by
  · simp only [pfSplit] at *
    split_ifs at * <;> simp_all <;> omega
  · simp only [pfSplit] at *
    split_ifs at * <;> simp_all <;> omega

theorem internal_parallel_for_base (grain lo hi : Nat) (h : hi - lo ≤ grain) :
    internal_parallel_for grain lo hi = List.range' lo (hi - lo) := by
  rw [internal_parallel_for]
  simp [pfSplit, h]

theorem internal_parallel_for_one (grain lo hi : Nat) (h1 : ¬ hi - lo ≤ grain)
    (h2 : (hi - lo) / 2 = 0) :
    internal_parallel_for grain lo hi = List.range' lo (hi - lo) := by
  rw [internal_parallel_for]
  simp [pfSplit, h1, h2]

theorem internal_parallel_for_rec (grain lo hi : Nat) (h1 : ¬ hi - lo ≤ grain)
    (h2 : (hi - lo) / 2 ≠ 0) :
    internal_parallel_for grain lo hi
      = internal_parallel_for grain lo (lo + (hi - lo) / 2)
        ++ internal_parallel_for grain (lo + (hi - lo) / 2) hi := by
  rw [internal_parallel_for]
  have h3 : ¬ lo + (hi - lo) / 2 ≤ lo := by omega
  simp [pfSplit, h1, h3]

theorem internal_parallel_for_perm (grain lo hi : Nat) :
    List.Perm (internal_parallel_for grain lo hi) (List.range' lo (hi - lo)) := by
  by_cases h1 : hi - lo ≤ grain
  · rw [internal_parallel_for_base grain lo hi h1]
  · by_cases h2 : (hi - lo) / 2 = 0
    · rw [internal_parallel_for_one grain lo hi h1 h2]
    · rw [internal_parallel_for_rec grain lo hi h1 h2]
      have ha := internal_parallel_for_perm grain lo (lo + (hi - lo) / 2)
      have hb := internal_parallel_for_perm grain (lo + (hi - lo) / 2) hi
      have hsum : List.range' lo (lo + (hi - lo) / 2 - lo)
          ++ List.range' (lo + (hi - lo) / 2) (hi - (lo + (hi - lo) / 2))
          = List.range' lo (hi - lo) := by
        have := List.range'_append lo (lo + (hi - lo) / 2 - lo)
          (hi - (lo + (hi - lo) / 2)) 1
        simp only [one_mul] at this
        rw [show lo + (lo + (hi - lo) / 2 - lo) = lo + (hi - lo) / 2 by omega] at this
        rw [show hi - (lo + (hi - lo) / 2) + (lo + (hi - lo) / 2 - lo) = hi - lo by omega]
          at this
        exact this
      have hab := List.Perm.append ha hb
      rw [hsum] at hab
      exact hab
termination_by hi - lo
decreasing_by
  · omega
  · omega

/-- C6: the partitioner driver applies the callable to each element of
the range exactly once: for the range from 0 to N, every x below N is
visited exactly once and nothing else is visited, whichever grain the
split uses. -/
theorem parallel_for_visits_each_element_once (grain N x : Nat) :
    (internal_parallel_for grain 0 N).count x = if x < N then 1 else 0 := by
  have hp := internal_parallel_for_perm grain 0 N
  rw [hp.count_eq]
  by_cases hx : x < N
  · rw [if_pos hx]
    exact List.count_eq_one_of_mem (List.nodup_range' 0 (N - 0))
      (by rw [List.mem_range'_1]; omega)
  · rw [if_neg hx]
    rw [List.count_eq_zero]
    rw [List.mem_range'_1]
    omega

/-- task_result_holder destructor behavior: the result destructor runs iff
the relaxed-loaded state is completed. -/
def holder_dtor_runs_result_dtor {R E : Type} (n : TaskNode R E) : Bool :=
  decide (n.state = TaskState.completed)

/-- task_result destructor behavior: the exception destructor runs iff the
relaxed-loaded state is canceled. -/
def result_dtor_runs_except_dtor {R E : Type} (n : TaskNode R E) : Bool :=
  decide (n.state = TaskState.canceled)

/-- task_func destructor behavior: the stored function object is destroyed
iff the relaxed-loaded state is still pending. -/
def task_func_dtor_destroys_func {R E : Type} (n : TaskNode R E) : Bool :=
  decide (n.state = TaskState.pending)

/-- States of a function-bearing task node reachable through the library's
execution paths: construction; registration of a continuation while the
vector is unsealed; the root/continuation success path (set_result,
destroy_func, finish); cancelation from pending, with or without the user
callable having been entered (exception from the callable, parent-canceled
propagation, or a failed schedule during a flush); the unwrap transition;
and the forwarding continuation finishing or canceling an unwrapped
parent via set_result+finish or cancel_base. -/
inductive TaskReachable (R E : Type) : TaskNode R E → Prop where
  | init (cs : List Nat) : TaskReachable R E (initTaskNode R E cs)
  | add_cont (n : TaskNode R E) (c : Nat) : TaskReachable R E n →
      n.contsSealed = false → TaskReachable R E { n with conts := n.conts ++ [c] }
  | run_ok (n : TaskNode R E) (v : R) : TaskReachable R E n →
      n.state = TaskState.pending →
      TaskReachable R E (task_finish (destroy_func (set_result v (mark_invoked n))))
  | run_err (n : TaskNode R E) (e : E) : TaskReachable R E n →
      n.state = TaskState.pending →
      TaskReachable R E (task_func_cancel e (mark_invoked n))
  | cancel_direct (n : TaskNode R E) (e : E) : TaskReachable R E n →
      n.state = TaskState.pending →
      TaskReachable R E (task_func_cancel e n)
  | unwrap (n : TaskNode R E) : TaskReachable R E n →
      n.state = TaskState.pending →
      TaskReachable R E (unwrapped_finish_local (mark_invoked n))
  | unwrap_child_ok (n : TaskNode R E) (v : R) : TaskReachable R E n →
      n.state = TaskState.unwrapped →
      TaskReachable R E (task_finish (set_result v n))
  | unwrap_child_err (n : TaskNode R E) (e : E) : TaskReachable R E n →
      n.state = TaskState.unwrapped →
      TaskReachable R E (cancel_base e n)

/-- State-indexed payload and function-holder invariant of a reachable
node: pending keeps an untouched union and a live function object; the
unwrapped, completed and canceled states have destroyed the function
object exactly once; the result slot is occupied exactly in completed and
the exception slot exactly in canceled; lock is never entered by
function-bearing tasks. -/
def nodeInv {R E : Type} (n : TaskNode R E) : Prop :=
  match n.state with
  | TaskState.pending =>
      n.resultSlot = none ∧ n.exceptSlot = none
      ∧ n.funcValid = true ∧ n.funcDestroyCount = 0
  | TaskState.locked => False
  | TaskState.unwrapped =>
      n.resultSlot = none ∧ n.exceptSlot = none
      ∧ n.funcValid = false ∧ n.funcDestroyCount = 1
  | TaskState.completed =>
      (∃ v, n.resultSlot = some v) ∧ n.exceptSlot = none
      ∧ n.funcValid = false ∧ n.funcDestroyCount = 1
  | TaskState.canceled =>
      n.resultSlot = none ∧ (∃ e, n.exceptSlot = some e)
      ∧ n.funcValid = false ∧ n.funcDestroyCount = 1

theorem reachable_nodeInv {R E : Type} (n : TaskNode R E)
    (h : TaskReachable R E n) : nodeInv n := by
  induction h with
  | init cs => simp [nodeInv, initTaskNode]
  | add_cont m c hm hseal ih =>
      simp only [nodeInv] at ih ⊢
      exact ih
  | run_ok m v hm hst ih =>
      simp only [nodeInv, hst] at ih
      simp [nodeInv, task_finish, run_continuations, destroy_func, set_result,
        mark_invoked, ih]
  | run_err m e hm hst ih =>
      simp only [nodeInv, hst] at ih
      simp [nodeInv, task_func_cancel, cancel_base, run_continuations,
        destroy_func, set_exception, mark_invoked, ih]
  | cancel_direct m e hm hst ih =>
      simp only [nodeInv, hst] at ih
      simp [nodeInv, task_func_cancel, cancel_base, run_continuations,
        destroy_func, set_exception, ih]
  | unwrap m hm hst ih =>
      simp only [nodeInv, hst] at ih
      simp [nodeInv, unwrapped_finish_local, destroy_func, mark_invoked, ih]
  | unwrap_child_ok m v hm hst ih =>
      simp only [nodeInv, hst] at ih
      simp [nodeInv, task_finish, run_continuations, set_result, ih]
  | unwrap_child_err m e hm hst ih =>
      simp only [nodeInv, hst] at ih
      simp [nodeInv, cancel_base, run_continuations, set_exception, ih]

/-- C7: along every reachable lifetime of a function-bearing task node,
the result slot of the storage union holds a validly constructed result
iff the state is completed and the exception slot holds a valid payload
iff the state is canceled; consequently the destructors, which test the
state, run the result destructor exactly when a result is present and the
exception destructor exactly when an exception is present. -/
theorem union_slots_match_state {R E : Type} (n : TaskNode R E)
    (h : TaskReachable R E n) :
    ((∃ v, n.resultSlot = some v) ↔ n.state = TaskState.completed)
    ∧ ((∃ e, n.exceptSlot = some e) ↔ n.state = TaskState.canceled)
    ∧ (holder_dtor_runs_result_dtor n = true ↔ (∃ v, n.resultSlot = some v))
    ∧ (result_dtor_runs_except_dtor n = true ↔ (∃ e, n.exceptSlot = some e)) := by
  have hi := reachable_nodeInv n h
  unfold nodeInv at hi
  unfold holder_dtor_runs_result_dtor result_dtor_runs_except_dtor
  rcases hst : n.state <;> rw [hst] at hi <;> simp_all

/-- Witness for C7 at the node of a root task that completed with 5. -/
theorem union_slots_match_state_witness :
    ((∃ v, (task_finish (destroy_func (set_result 5
        (mark_invoked (initTaskNode Nat Nat []))))).resultSlot = some v)
      ↔ (task_finish (destroy_func (set_result 5
        (mark_invoked (initTaskNode Nat Nat []))))).state = TaskState.completed)
    ∧ ((∃ e, (task_finish (destroy_func (set_result 5
        (mark_invoked (initTaskNode Nat Nat []))))).exceptSlot = some e)
      ↔ (task_finish (destroy_func (set_result 5
        (mark_invoked (initTaskNode Nat Nat []))))).state = TaskState.canceled)
    ∧ (holder_dtor_runs_result_dtor (task_finish (destroy_func (set_result 5
        (mark_invoked (initTaskNode Nat Nat []))))) = true
      ↔ (∃ v, (task_finish (destroy_func (set_result 5
        (mark_invoked (initTaskNode Nat Nat []))))).resultSlot = some v))
    ∧ (result_dtor_runs_except_dtor (task_finish (destroy_func (set_result 5
        (mark_invoked (initTaskNode Nat Nat []))))) = true
      ↔ (∃ e, (task_finish (destroy_func (set_result 5
        (mark_invoked (initTaskNode Nat Nat []))))).exceptSlot = some e)) :=
  union_slots_match_state _
    (TaskReachable.run_ok (initTaskNode Nat Nat []) 5
      (TaskReachable.init []) rfl)

/-- C9: along every reachable lifetime of a function-bearing task node,
the captured function object is destroyed exactly once: the run, cancel
and unwrap paths destroy it when the node leaves pending, and the
destructor destroys it iff the state at destruction time is still
pending, so the total number of destructor runs on the function object
over the node's lifetime is one. -/
theorem func_destroyed_exactly_once {R E : Type} (n : TaskNode R E)
    (h : TaskReachable R E n) :
    n.funcDestroyCount
      + (if task_func_dtor_destroys_func n = true then 1 else 0) = 1
    ∧ (n.funcValid = true ↔ n.funcDestroyCount = 0) := by
  have hi := reachable_nodeInv n h
  unfold nodeInv at hi
  unfold task_func_dtor_destroys_func
  rcases hst : n.state <;> rw [hst] at hi <;> simp_all

/-- Witness for C9 at the node of a root task whose callable threw 3. -/
theorem func_destroyed_exactly_once_witness :
    (task_func_cancel 3 (mark_invoked (initTaskNode Nat Nat []))).funcDestroyCount
      + (if task_func_dtor_destroys_func
            (task_func_cancel 3 (mark_invoked (initTaskNode Nat Nat []))) = true
         then 1 else 0) = 1
    ∧ ((task_func_cancel 3 (mark_invoked (initTaskNode Nat Nat []))).funcValid = true
      ↔ (task_func_cancel 3 (mark_invoked (initTaskNode Nat Nat []))).funcDestroyCount
          = 0) :=
  func_destroyed_exactly_once _
    (TaskReachable.run_err (initTaskNode Nat Nat []) 3
      (TaskReachable.init []) rfl)

/-- Indices whose element constructor ran successfully when the
aligned_array(length) constructor loop throws at index i: placement-new
succeeded at 0 .. i-1. -/
def aligned_array_constructed (i : Nat) : List Nat :=
  List.range i

/-- The destructor calls issued by the catch block of the aligned_array
constructor as written in aligned_alloc.h: the loop for j in [0, i) calls
the destructor on ptr[i] at every iteration, so the slot index i is
destroyed i times. -/
def aligned_array_catch_destroys (i : Nat) : List Nat :=
  (List.range i).map (fun _ => i)

/-- Destructor calls required by the claim (and by the comment above the
catch block): each already-constructed element 0 .. i-1 destroyed exactly
once. -/
def aligned_array_claim_destroys (i : Nat) : List Nat :=
  List.range i

/-- C10: evaluation of the catch block at the failing input, an
aligned_array of length 2 whose element constructor throws at index 1.
The constructed prefix is exactly slot 0, but the cleanup loop written in
the source never destroys slot 0 and instead destroys the unconstructed
slot 1 once, diverging from the required cleanup that destroys slot 0
exactly once. -/
theorem aligned_array_cleanup_divergence :
    aligned_array_constructed 1 = [0]
    ∧ aligned_array_catch_destroys 1 = [1]
    ∧ aligned_array_claim_destroys 1 = [0]
    ∧ (aligned_array_catch_destroys 1).count 0 = 0
    ∧ (aligned_array_catch_destroys 1).count 1 = 1
    ∧ aligned_array_catch_destroys 1 ≠ aligned_array_claim_destroys 1 := by
  decide
